import Mathlib

/-!
Verification of the meeting-processing back-end (job orchestration engine).

The development shallowly embeds the Python sources:
  app/processing/mapper.py        (speaker-word mapper)
  app/services/websocket_manager.py (live-update fan-out)
  app/api/routes/meeting.py       (job controller routes)
  app/api/deps.py                 (ownership dependencies)
  app/worker/tasks.py             (transcription / diarization workers)
  app/main.py                     (stale-job reaper)
  app/db/models.py                (data model and its column constraints)

Timestamps are modelled as rationals, wall-clock instants as integers
(seconds).  Fallible routes return `Except`.  Where the outcome of a route
depends on a Python module-level name being bound, the embedding carries the
list of names the module's import statements actually bind and looks the
name up, mirroring Python name resolution.
-/

namespace MeetingApp

/-! ## Speaker-word mapper (app/processing/mapper.py) -/

/-- One word of the word-level transcript: the source dict
`\x7b'word': ..., 'start': ..., 'end': ...\x7d`.  The source's `end` key is
rendered as `end_` because `end` is a Lean keyword. -/
structure Word where
  word : String
  start : ℚ
  end_ : ℚ
deriving DecidableEq, Repr

/-- One diarizer region: the source dict
`\x7b'start_s': ..., 'end_s': ..., 'speaker': ...\x7d`. -/
structure SpeakerSeg where
  start_s : ℚ
  end_s : ℚ
  speaker : String
deriving DecidableEq, Repr

/-- One output segment of the mapper:
`\x7b'speaker': ..., 'text': ..., 'start_time': ..., 'end_time': ...\x7d`. -/
structure DiaSeg where
  speaker : String
  text : String
  start_time : ℚ
  end_time : ℚ
deriving DecidableEq, Repr

/-- Center time `word_center = word_start + (word_end - word_start) / 2` from
`map_speaker_to_text`. -/
def center (w : Word) : ℚ := w.start + (w.end_ - w.start) / 2

/-- The inner `while` loop of `map_speaker_to_text` for one speaker segment
`[s, e]`: skip words whose center is before `s`, collect words whose center
is `≤ e`, and stop (without consuming) at the first word whose center is
past `e`.  Returns the collected words and the remaining word list. -/
def collectWords (s e : ℚ) : List Word → List Word × List Word
  | [] => ([], [])
  | w :: ws =>
    if center w < s then collectWords s e ws
    else if center w ≤ e then
      let p := collectWords s e ws
      (w :: p.1, p.2)
    else ([], w :: ws)

/-- The outer `for` loop of `map_speaker_to_text`: one pass over the speaker
segments, threading the word cursor, emitting a segment only when at least
one word was collected. -/
def mapLoop : List SpeakerSeg → List Word → List DiaSeg
  | [], _ => []
  | sg :: rest, ws =>
    let p := collectWords sg.start_s sg.end_s ws
    let tail := mapLoop rest p.2
    if p.1.isEmpty then tail
    else { speaker := sg.speaker,
           text := String.intercalate " " (p.1.map Word.word),
           start_time := sg.start_s, end_time := sg.end_s } :: tail

/-- Embedding of `map_speaker_to_text` including the early return on empty inputs. -/
def map_speaker_to_text (diarization_output : List SpeakerSeg)
    (word_level_transcript : List Word) : List DiaSeg :=
  if diarization_output.isEmpty || word_level_transcript.isEmpty then []
  else mapLoop diarization_output word_level_transcript

/-! ### Characterisation of the mapper -/

/-- Words the inner loop keeps for speaker segment `sg` out of the words it
processes: those whose center is not before `sg.start_s` (the others are
skipped as silent-gap words). -/
def assigned (sg : SpeakerSeg) (l : List Word) : List Word :=
  l.filter (fun w => decide (sg.start_s ≤ center w))

/-- Renders one emitted mapper segment from a speaker segment and its
assigned words, exactly as the source builds its output dict. -/
def renderSeg (p : SpeakerSeg × List Word) : DiaSeg :=
  { speaker := p.1.speaker,
    text := String.intercalate " " (p.2.map Word.word),
    start_time := p.1.start_s, end_time := p.1.end_s }

lemma collectWords_split (s e : ℚ) (ws : List Word) :
    ∃ pre rest, ws = pre ++ rest ∧
      collectWords s e ws = (pre.filter (fun w => decide (s ≤ center w)), rest) ∧
      ∀ w ∈ pre, center w < s ∨ center w ≤ e := by
  induction ws with
  | nil => exact ⟨[], [], rfl, rfl, by simp⟩
  | cons w ws ih =>
    obtain ⟨pre, rest, hsplit, heq, hmem⟩ := ih
    by_cases h1 : center w < s
    · refine ⟨w :: pre, rest, by simp [hsplit], ?_, ?_⟩
      · have hw : (decide (s ≤ center w)) = false := by simp [not_le.mpr h1]
        simp [collectWords, h1, heq, List.filter_cons, hw]
      · intro x hx
        rcases List.mem_cons.mp hx with h | h
        · exact h ▸ Or.inl h1
        · exact hmem x h
    · by_cases h2 : center w ≤ e
      · refine ⟨w :: pre, rest, by simp [hsplit], ?_, ?_⟩
        · have hw : (decide (s ≤ center w)) = true := by simp [not_lt.mp h1]
          simp [collectWords, h1, h2, heq, List.filter_cons, hw]
        · intro x hx
          rcases List.mem_cons.mp hx with h | h
          · exact h ▸ Or.inr h2
          · exact hmem x h
      · exact ⟨[], w :: ws, rfl, by simp [collectWords, h1, h2], by simp⟩

lemma mapLoop_split (segs : List SpeakerSeg) (ws : List Word) :
    ∃ (processed : List (List Word)) (rest : List Word),
      processed.length = segs.length ∧
      ws = processed.flatten ++ rest ∧
      (∀ p ∈ segs.zip processed, ∀ w ∈ p.2,
        center w < p.1.start_s ∨ center w ≤ p.1.end_s) ∧
      mapLoop segs ws =
        (((segs.zip processed).map (fun p => (p.1, assigned p.1 p.2))).filter
          (fun q => !q.2.isEmpty)).map renderSeg := by
  induction segs generalizing ws with
  | nil => exact ⟨[], ws, rfl, rfl, by simp, by simp [mapLoop]⟩
  | cons sg rest ih =>
    obtain ⟨pre, mid, hsplit, heq, hmem⟩ := collectWords_split sg.start_s sg.end_s ws
    obtain ⟨processed, tailRest, hlen, hsplit2, hmem2, houtput⟩ := ih mid
    refine ⟨pre :: processed, tailRest, by simp [hlen], ?_, ?_, ?_⟩
    · simp [List.flatten_cons, hsplit, hsplit2, List.append_assoc]
    · intro p hp
      rw [List.zip_cons_cons] at hp
      rcases List.mem_cons.mp hp with h | h
      · subst h
        intro w hw
        rcases hmem w hw with h1 | h2
        · exact Or.inl h1
        · exact Or.inr h2
      · exact hmem2 p h
    · have : mapLoop (sg :: rest) ws =
          (if (assigned sg pre).isEmpty then mapLoop rest mid
           else renderSeg (sg, assigned sg pre) :: mapLoop rest mid) := by
        simp [mapLoop, heq, assigned, renderSeg]
      rw [this, houtput]
      by_cases hE : (assigned sg pre).isEmpty
      · simp [hE, List.zip_cons_cons, List.filter_cons]
      · simp [hE, List.zip_cons_cons, List.filter_cons]

lemma mapLoop_nil_words (segs : List SpeakerSeg) : mapLoop segs [] = [] := by
  induction segs with
  | nil => rfl
  | cons sg rest ih => simp [mapLoop, collectWords, ih]

lemma map_speaker_to_text_eq_mapLoop (segs : List SpeakerSeg) (ws : List Word) :
    map_speaker_to_text segs ws = mapLoop segs ws := by
  rcases segs with _ | ⟨sg, rest⟩
  · simp [map_speaker_to_text, mapLoop]
  · rcases ws with _ | ⟨w, ws⟩
    · simp [map_speaker_to_text, mapLoop_nil_words]
    · simp [map_speaker_to_text]

lemma flatten_sublist_of_forall_sublist {α : Type} {L M : List (List α)}
    (hlen : L.length = M.length)
    (h : ∀ p ∈ L.zip M, p.1.Sublist p.2) : L.flatten.Sublist M.flatten := by
  induction L generalizing M with
  | nil => simp
  | cons a L ih =>
    rcases M with _ | ⟨b, M⟩
    · simp at hlen
    · have hab : a.Sublist b := h (a, b) (by simp [List.zip_cons_cons])
      have hrest : L.flatten.Sublist M.flatten := by
        refine ih (by simpa using hlen) ?_
        intro p hp
        exact h p (by simp [List.zip_cons_cons, hp])
      simpa [List.flatten_cons] using hab.append hrest

/-! ### Spec scenario 6 data (mapper corner case) -/

/-- Speaker timeline of the spec's scenario 6. -/
def demoSegs : List SpeakerSeg := [⟨0, 5, "S1"⟩, ⟨5, 10, "S2"⟩]

/-- Word timeline of the spec's scenario 6 (centers 0.3, 5.0, 6.2). -/
def demoWords : List Word :=
  [⟨"a", 1/10, 1/2⟩, ⟨"b", 24/5, 26/5⟩, ⟨"c", 6, 32/5⟩]

/-- Expected mapper output of the spec's scenario 6: the word with center
exactly 5.0 lands in the earlier segment. -/
def demoMapped : List DiaSeg := [⟨"S1", "a b", 0, 5⟩, ⟨"S2", "c", 5, 10⟩]

/-- C6: for every speaker timeline sorted by start and word timeline sorted
by start, `map_speaker_to_text` emits one segment per speaker segment that
receives at least one word, spanning exactly that speaker segment's
interval; every word contributing to a segment's text has center in
[start, end]; words are joined with single spaces in non-decreasing start
order; no input word occurrence is used in more than one segment (the
assigned words, in input order, form a sublist of the word timeline);
processed words whose center falls before the current segment's start are
discarded; and on the spec's scenario-6 input the word with center exactly
5.0 is assigned to the earlier segment. -/
theorem mapper_maps_words_correctly :
    (∀ (segs : List SpeakerSeg) (words : List Word),
      List.Pairwise (fun a b => a.start_s ≤ b.start_s) segs →
      List.Pairwise (fun a b : Word => a.start ≤ b.start) words →
      ∃ (processed : List (List Word)) (rest : List Word),
        processed.length = segs.length ∧
        words = processed.flatten ++ rest ∧
        map_speaker_to_text segs words =
          (((segs.zip processed).map (fun p => (p.1, assigned p.1 p.2))).filter
            (fun q => !q.2.isEmpty)).map renderSeg ∧
        (∀ p ∈ segs.zip processed, ∀ w ∈ assigned p.1 p.2,
          p.1.start_s ≤ center w ∧ center w ≤ p.1.end_s) ∧
        (∀ p ∈ segs.zip processed, ∀ w ∈ p.2, w ∉ assigned p.1 p.2 →
          center w < p.1.start_s) ∧
        ((segs.zip processed).map (fun p => assigned p.1 p.2)).flatten.Sublist words ∧
        (∀ p ∈ segs.zip processed,
          (assigned p.1 p.2).Pairwise (fun a b => a.start ≤ b.start))) ∧
    map_speaker_to_text demoSegs demoWords = demoMapped := by
  constructor
  · intro segs words _hs hw
    obtain ⟨processed, rest, hlen, hsplit, hmem, hout⟩ := mapLoop_split segs words
    have hflat : processed.flatten.Sublist words := by
      rw [hsplit]; exact List.sublist_append_left _ _
    refine ⟨processed, rest, hlen, hsplit, ?_, ?_, ?_, ?_, ?_⟩
    · rw [map_speaker_to_text_eq_mapLoop]; exact hout
    · intro p hp w hwmem
      obtain ⟨hw2, hd⟩ := List.mem_filter.mp hwmem
      have hle : p.1.start_s ≤ center w := of_decide_eq_true hd
      rcases hmem p hp w hw2 with h1 | h2
      · exact absurd hle (not_le.mpr h1)
      · exact ⟨hle, h2⟩
    · intro p hp w hw2 hnot
      by_contra hcon
      exact hnot (List.mem_filter.mpr ⟨hw2, decide_eq_true (not_lt.mp hcon)⟩)
    · have h1 : (((segs.zip processed).map (fun p => assigned p.1 p.2)).flatten).Sublist
          (((segs.zip processed).map Prod.snd).flatten) := by
        refine flatten_sublist_of_forall_sublist (by simp) ?_
        intro q hq
        rw [List.zip_map'] at hq
        obtain ⟨p, _hp, hpq⟩ := List.mem_map.mp hq
        rw [← hpq]
        exact List.filter_sublist _
      have h2 : (segs.zip processed).map Prod.snd = processed :=
        List.map_snd_zip segs processed (le_of_eq hlen)
      rw [h2] at h1
      exact h1.trans hflat
    · intro p hp
      have hp2 : p.2 ∈ processed := (List.of_mem_zip hp).2
      have hsub : (assigned p.1 p.2).Sublist words :=
        ((List.filter_sublist _).trans (List.sublist_flatten_of_mem hp2)).trans hflat
      exact hw.sublist hsub
  · norm_num [map_speaker_to_text, mapLoop, collectWords, center, demoSegs,
      demoWords, demoMapped, renderSeg]
    exact ⟨by decide, by decide⟩

/-- Witness for C6: the hypotheses of `mapper_maps_words_correctly` are
satisfied by the spec's scenario-6 timelines, and the theorem applies to
them. -/
theorem mapper_maps_words_correctly_witness :
    List.Pairwise (fun a b : SpeakerSeg => a.start_s ≤ b.start_s) demoSegs ∧
    List.Pairwise (fun a b : Word => a.start ≤ b.start) demoWords ∧
    ∃ (processed : List (List Word)) (rest : List Word),
      processed.length = demoSegs.length ∧
      demoWords = processed.flatten ++ rest ∧
      map_speaker_to_text demoSegs demoWords =
        (((demoSegs.zip processed).map (fun p => (p.1, assigned p.1 p.2))).filter
          (fun q => !q.2.isEmpty)).map renderSeg ∧
      (∀ p ∈ demoSegs.zip processed, ∀ w ∈ assigned p.1 p.2,
        p.1.start_s ≤ center w ∧ center w ≤ p.1.end_s) ∧
      (∀ p ∈ demoSegs.zip processed, ∀ w ∈ p.2, w ∉ assigned p.1 p.2 →
        center w < p.1.start_s) ∧
      ((demoSegs.zip processed).map (fun p => assigned p.1 p.2)).flatten.Sublist
        demoWords ∧
      (∀ p ∈ demoSegs.zip processed,
        (assigned p.1 p.2).Pairwise (fun a b => a.start ≤ b.start)) := by
  have hs : List.Pairwise (fun a b : SpeakerSeg => a.start_s ≤ b.start_s) demoSegs := by
    norm_num [demoSegs, List.pairwise_cons]
  have hw : List.Pairwise (fun a b : Word => a.start ≤ b.start) demoWords := by
    norm_num [demoWords, List.pairwise_cons]
  exact ⟨hs, hw, mapper_maps_words_correctly.1 demoSegs demoWords hs hw⟩

/-! ## Python-level errors and name resolution

A Python global name evaluates successfully only when the enclosing module
binds it (imports, module-level defs).  The embedding records, per module,
the names its import statements bind, and a reference to a name outside
that list raises `NameError`. -/

/-- A Python runtime error escaping a route or service call: an unbound
global name, or a pydantic `ValidationError` naming the model whose
construction failed. -/
inductive PyErr where
  | nameError (missing : String)
  | validationError (model : String)
deriving DecidableEq, Repr

/-- An error response of a controller route: an HTTPException with its
status code and detail, or an uncaught Python error (HTTP 500). -/
inductive RouteErr where
  | httpErr (statusCode : Nat) (detail : String)
  | pyError (e : PyErr)
deriving DecidableEq, Repr

/-! ## Live-update bus (app/services/websocket_manager.py) -/

/-- Module-level names bound in `websocket_manager.py`: its three import
statements bind `logging`, `Dict`, `List`, `Any` and `WebSocket`, and the
module body binds `logger`, `WebSocketManager` and `websocket_manager`.
No statement of the module binds `asyncio`. -/
def websocketManagerModuleNames : List String :=
  ["logging", "Dict", "List", "Any", "WebSocket",
   "logger", "WebSocketManager", "websocket_manager"]

/-- Embedding of `WebSocketManager.broadcast_to_job`.  Connection handles are modelled
as naturals, the registry as an association list (a Python dict keyed by
`request_id`).  When the key is absent the method falls through and sends
nothing.  When it is present, the method builds the send coroutines and
evaluates `asyncio.gather(...)`: evaluating the global name `asyncio`
raises `NameError` unless the module binds it.  On success the result
lists the `(connection, payload)` sends performed. -/
def broadcast_to_job {α : Type} (active_connections : List (String × List Nat))
    (request_id : String) (message : α) : Except PyErr (List (Nat × α)) :=
  match active_connections.find? (fun e => e.1 = request_id) with
  | none => .ok []
  | some e =>
    if "asyncio" ∈ websocketManagerModuleNames then
      .ok (e.2.map (fun c => (c, message)))
    else .error (.nameError "asyncio")

/-- C1: the claim that `broadcast_to_job` sends the payload to every handle
registered under the request id without raising fails on the code: the
module never imports `asyncio`, so as soon as at least one handle is
registered the call raises `NameError` before sending anything.  Here a
single handle `0` is registered under request id r1. -/
theorem broadcast_with_registered_handle_raises :
    [("r1", [0])].find? (fun e => e.1 = "r1") = some ("r1", [(0 : Nat)]) ∧
    broadcast_to_job [("r1", [0])] "r1" "payload" = .error (.nameError "asyncio") := by
  constructor
  · rfl
  · rfl

/-! ## Data model (app/db/models.py), controller-facing part -/

/-- The columns of `MeetingJob` the controller routes read or write.
Wall-clock instants are seconds as integers. -/
structure MeetingJobRec where
  request_id : String
  user_id : Nat
  original_filename : String
  bbh_name : String
  meeting_type : String
  meeting_host : String
  language : String
  status : String
  error_message : Option String
  upload_started_at : Option Int
  upload_finished_at : Option Int
  created_at : Int
  updated_at : Int
deriving DecidableEq, Repr

/-- One stored plain-transcript segment, the shape of the `PlainSegment`
schema (`id`, `text`, `start_time`, `end_time`). -/
structure PSeg where
  id : Option Int
  text : String
  start_time : ℚ
  end_time : ℚ
deriving DecidableEq, Repr

/-- A `Transcription` row: language-scoped transcript of one job.  The
table has no uniqueness constraint over (job, language). -/
structure TransRow where
  language : String
  transcript_data : List PSeg
  is_edited : Bool
deriving DecidableEq, Repr

/-- A `DiarizedTranscript` row; `meeting_job_id` is UNIQUE, so a job has at
most one row, modelled as an `Option` in the per-job state. -/
structure DiaTransRow where
  transcript_data : List DiaSeg
  is_edited : Bool
deriving DecidableEq, Repr

/-- A `Summary` row (type and content). -/
structure SummaryRow where
  summary_type : String
  summary_content : String
deriving DecidableEq, Repr

/-- A `ChatHistory` row. -/
structure ChatRow where
  role : String
  message : String
deriving DecidableEq, Repr

/-- The database state of a single job as seen by the controller routes:
the job row and its dependent rows. -/
structure ControllerState where
  job : MeetingJobRec
  transcriptions : List TransRow
  diarized : Option DiaTransRow
  summaries : List SummaryRow
  chat_history : List ChatRow
deriving DecidableEq, Repr

/-! ## Status envelope (app/api/routes/meeting.py) -/

/-- Python `int(...)` on a rational: truncation toward zero. -/
def pyTrunc (q : ℚ) : Int := if q < 0 then -((-q).floor) else q.floor

/-- Python format spec `02`: left pad with `0` to width 2. -/
def pad2 (n : Int) : String :=
  let s := toString n
  if s.length < 2 then "0" ++ s else s

/-- Embedding of `_format_seconds_to_hms` on a numeric input (`hours:minutes:seconds`
with integer truncation; Python `//` and `%` are floor division and
matching modulus, `Int.fdiv` / `Int.fmod`).  The source's non-numeric
branch returning `"00:00:00"` is outside this typed model. -/
def format_seconds_to_hms (seconds : ℚ) : String :=
  let s := pyTrunc seconds
  pad2 (s.fdiv 3600) ++ ":" ++ pad2 ((s.fmod 3600).fdiv 60) ++ ":" ++ pad2 (s.fmod 60)

/-- A plain segment dict after time formatting. -/
structure FmtSeg where
  id : Option Int
  text : String
  start_time : String
  end_time : String
deriving DecidableEq, Repr

/-- A diarized segment dict after time formatting. -/
structure FmtDiaSeg where
  speaker : String
  text : String
  start_time : String
  end_time : String
deriving DecidableEq, Repr

/-- Formatting of one stored plain segment inside `_format_job_status`. -/
def fmtSeg (s : PSeg) : FmtSeg :=
  ⟨s.id, s.text, format_seconds_to_hms s.start_time, format_seconds_to_hms s.end_time⟩

/-- Formatting of one stored diarized segment inside `_format_job_status`. -/
def fmtDiaSeg (d : DiaSeg) : FmtDiaSeg :=
  ⟨d.speaker, d.text, format_seconds_to_hms d.start_time, format_seconds_to_hms d.end_time⟩

/-- The `MeetingStatusResponse` payload. -/
structure StatusEnvelope where
  request_id : String
  status : String
  bbh_name : String
  meeting_type : String
  meeting_host : String
  language : String
  plain_transcript : Option (List FmtSeg)
  diarized_transcript : Option (List FmtDiaSeg)
  error_message : Option String
deriving DecidableEq, Repr

/-- Names bound at module level of `app/api/routes/meeting.py` by
its import statements (source lines 1-37).  The schema imports bind ten
names from `app.schemas.meeting`; `DiarizedSegment` is not among them and
no other statement of the module binds it. -/
def meetingRouteImportedNames : List String :=
  ["json", "logging", "os", "re", "shutil", "datetime", "Path", "timezone",
   "ZoneInfo", "List", "Dict", "Any", "Tuple", "Optional", "quote",
   "APIRouter", "Depends", "File", "Form", "HTTPException", "Query",
   "UploadFile", "status", "WebSocket", "WebSocketDisconnect",
   "FileResponse", "StreamingResponse", "AudioSegment", "pydub_exceptions",
   "Session", "select",
   "get_cancellable_job", "get_db_session", "get_job_ready_for_diarization",
   "get_job_with_any_transcript", "get_job_with_completed_diarization",
   "get_or_create_user", "get_owned_job_from_path",
   "settings", "engine",
   "ChatHistory", "MeetingJob", "Summary", "Transcription", "User",
   "ChatRequest", "ChatResponse", "LanguageChangeRequest",
   "MeetingInfoUpdateRequest", "MeetingJobResponseWrapper",
   "MeetingStatusResponse", "PlainSegment", "PlainTranscriptUpdateRequest",
   "SummaryRequest", "SummaryResponse",
   "ai_service", "generate_templated_document", "generate_docx_from_markdown",
   "websocket_manager", "celery_app"]

/-- Exponent tail of a Python float literal: an optional sign followed by
at least one digit. -/
def expDigitsOk (u : List Char) : Bool :=
  let v := match u with
    | '+' :: w => w
    | '-' :: w => w
    | w => w
  !v.isEmpty && v.all Char.isDigit

/-- Whether Python `float(s)` succeeds — the coercion pydantic's lax mode
runs when a string meets a `float` field.  Modelled grammar: optional
surrounding whitespace, optional sign, a mantissa with at least one digit
(digits, optionally with one dot), optional exponent.  (`inf`, `nan` and
underscore separators are not represented; no `HH:MM:SS` string is close
to any of these.) -/
def pyFloatOk (s : String) : Bool :=
  let t0 := (s.data.dropWhile Char.isWhitespace).reverse.dropWhile Char.isWhitespace
  let t1 := t0.reverse
  let t2 := match t1 with
    | '+' :: u => u
    | '-' :: u => u
    | u => u
  let ip := t2.takeWhile Char.isDigit
  let r1 := t2.dropWhile Char.isDigit
  let p := match r1 with
    | '.' :: u => (u.takeWhile Char.isDigit, u.dropWhile Char.isDigit)
    | u => (([] : List Char), u)
  let expOk := match p.2 with
    | [] => true
    | 'e' :: u => expDigitsOk u
    | 'E' :: u => expDigitsOk u
    | _ => false
  (!ip.isEmpty || !p.1.isEmpty) && expOk

/-- Pydantic validation of `PlainSegment(**seg)` on one formatted dict:
`id` (optional int) and `text` (str) pass unchanged, but `start_time` and
`end_time` are declared `float` in the schema while the dict holds the
`format_seconds_to_hms` strings, so lax coercion runs `float(..)` on
them and the construction succeeds only when both parse.  (On success
pydantic would store the coerced floats; that branch is kept as the
identity here because an `HH:MM:SS` string always contains colons and
never coerces, so it is unreachable for this data.  Worker-written rows
would additionally lack the required `text` key — not represented, it
could only add a second failure mode.) -/
def validateFmtSeg (seg : FmtSeg) : Bool :=
  pyFloatOk seg.start_time && pyFloatOk seg.end_time

/-- Embedding of `_format_job_status`: look up the Transcription for the
job's active language (`.first()` on the filtered select), format its
segments into dicts with `HH:MM:SS` string times when the data is
non-empty, likewise for the diarized transcript, then build
`MeetingStatusResponse(...)`.  Its keyword arguments evaluate in source
order: line 189 first builds `[PlainSegment(**seg) ...]`, whose pydantic
validation fails on the string-valued float fields; only then does line
190 evaluate the global name `DiarizedSegment`, which raises `NameError`
when the module does not bind it. -/
def format_job_status (st : ControllerState) : Except PyErr StatusEnvelope :=
  let entry := st.transcriptions.find? (fun t => t.language = st.job.language)
  let plain : Option (List FmtSeg) :=
    match entry with
    | some t => if t.transcript_data.isEmpty then none
                else some (t.transcript_data.map fmtSeg)
    | none => none
  let dia : Option (List FmtDiaSeg) :=
    match st.diarized with
    | some d => if d.transcript_data.isEmpty then none
                else some (d.transcript_data.map fmtDiaSeg)
    | none => none
  if ¬ (plain.getD []).all validateFmtSeg then
    .error (.validationError "PlainSegment")
  else
    match dia with
    | some ds =>
      if "DiarizedSegment" ∈ meetingRouteImportedNames then
        .ok ⟨st.job.request_id, st.job.status, st.job.bbh_name,
          st.job.meeting_type, st.job.meeting_host, st.job.language,
          plain, some ds, st.job.error_message⟩
      else .error (.nameError "DiarizedSegment")
    | none =>
      .ok ⟨st.job.request_id, st.job.status, st.job.bbh_name,
        st.job.meeting_type, st.job.meeting_host, st.job.language,
        plain, none, st.job.error_message⟩

/-- Route `GET /meeting/\x7brequest_id\x7d/status` for an existing job: the
`get_owned_job_from_path` dependency rejects a non-owner with 403, then
the route formats the job.  An escaping Python error is an HTTP 500. -/
def get_meeting_status (st : ControllerState) (callerId : Nat) :
    Except RouteErr StatusEnvelope :=
  if st.job.user_id = callerId then
    match format_job_status st with
    | .ok env => .ok env
    | .error e => .error (.pyError e)
  else .error (.httpErr 403 "Forbidden: You do not have permission to access this resource.")

/-- A completed job owned by user 7 with a Vietnamese transcript and a
diarized transcript, both with data. -/
def stWithDia : ControllerState :=
  { job := { request_id := "r1", user_id := 7, original_filename := "m.wav",
             bbh_name := "BBH", meeting_type := "online", meeting_host := "Lan",
             language := "vi", status := "completed", error_message := none,
             upload_started_at := some 100, upload_finished_at := some 200,
             created_at := 0, updated_at := 0 },
    transcriptions := [⟨"vi", [⟨some 1, "xin chào", 0, 3661⟩], false⟩],
    diarized := some ⟨[⟨"S1", "xin chào", 0, 3661⟩], false⟩,
    summaries := [], chat_history := [] }

/-- C2: getStatus never returns the claimed envelope without an internal
error.  On the owner's request for a job whose active-language Transcript
has data, `PlainSegment` declares float times while `_format_job_status`
passes `HH:MM:SS` strings, so pydantic raises `ValidationError` at line
189 — before line 190 can evaluate the unbound name `DiarizedSegment`.
With no plain data but a DiarizedTranscript with data, the `NameError`
for the never-imported `DiarizedSegment` fires instead.  Only a job with
neither yields an envelope. -/
theorem get_status_raises_internal_error :
    get_meeting_status stWithDia 7 =
      .error (.pyError (.validationError "PlainSegment")) ∧
    get_meeting_status { stWithDia with transcriptions := [] } 7 =
      .error (.pyError (.nameError "DiarizedSegment")) ∧
    get_meeting_status { stWithDia with transcriptions := [], diarized := none } 7 =
      .ok ⟨"r1", "completed", "BBH", "online", "Lan", "vi", none, none, none⟩ :=
  ⟨rfl, rfl, rfl⟩

/-! ## Plain-transcript edit (app/api/routes/meeting.py, update_plain_transcript) -/

/-- Replaces the first list element satisfying `p` by `f` of it (the ORM
mutation of the row returned by `.first()`). -/
def updateFirst {α : Type} (p : α → Bool) (f : α → α) : List α → List α
  | [] => []
  | a :: as => if p a then f a :: as else a :: updateFirst p f as

/-- Route `PUT /meeting/\x7brequest_id\x7d/transcript/plain` (after ownership):
404 when no Transcription exists for the active language; otherwise, IF a
diarized transcript exists it is deleted and the status set to
`transcription_complete` (both inside that `if`), then all summaries and
all chat entries are deleted, and the found Transcription's data is
replaced by the payload with `is_edited = True`. -/
def update_plain_transcript (st : ControllerState) (segments : List PSeg) :
    Except RouteErr ControllerState :=
  match st.transcriptions.find? (fun t => t.language = st.job.language) with
  | none => .error (.httpErr 404
      ("No active transcript found for language '" ++ st.job.language ++ "'. Cannot update."))
  | some _ =>
    let st1 :=
      match st.diarized with
      | some _ => { st with diarized := none,
                            job := { st.job with status := "transcription_complete" } }
      | none => st
    let st2 := { st1 with summaries := [], chat_history := [] }
    let newRows := updateFirst (fun t => t.language = st.job.language)
      (fun t => { t with transcript_data := segments, is_edited := true })
      st2.transcriptions
    .ok { st2 with transcriptions := newRows }

/-- A job whose transcription succeeded but whose diarization failed:
status `failed`, a Vietnamese transcript, no diarized transcript, one
summary and chat history present. -/
def stFailedNoDia : ControllerState :=
  { job := { request_id := "r2", user_id := 7, original_filename := "m.wav",
             bbh_name := "BBH", meeting_type := "online", meeting_host := "Lan",
             language := "vi", status := "failed",
             error_message := some "Diarization Error: boom",
             upload_started_at := some 100, upload_finished_at := some 200,
             created_at := 0, updated_at := 0 },
    transcriptions := [⟨"vi", [⟨some 1, "xin chào", 0, 3661⟩], false⟩],
    diarized := none,
    summaries := [⟨"topic", "X"⟩], chat_history := [⟨"user", "hi"⟩] }

/-- C3: the edit succeeds and clears summaries, chat and (absent) diarized
data and sets the edited flag, but the status is reverted to
`transcription_complete` ONLY inside the `if job.diarized_transcript:`
branch.  On a job without a diarized transcript (here: one whose
diarization failed) the status is left untouched, contradicting the claim
and the route's own docstring. -/
theorem update_transcript_without_diarized_keeps_status :
    update_plain_transcript stFailedNoDia [⟨some 1, "sửa rồi", 0, 2⟩] =
      .ok { job := { request_id := "r2", user_id := 7, original_filename := "m.wav",
                     bbh_name := "BBH", meeting_type := "online", meeting_host := "Lan",
                     language := "vi", status := "failed",
                     error_message := some "Diarization Error: boom",
                     upload_started_at := some 100, upload_finished_at := some 200,
                     created_at := 0, updated_at := 0 },
            transcriptions := [⟨"vi", [⟨some 1, "sửa rồi", 0, 2⟩], true⟩],
            diarized := none, summaries := [], chat_history := [] } ∧
    "failed" ≠ "transcription_complete" :=
  ⟨rfl, by decide⟩

/-! ## Language change (app/api/routes/meeting.py, change_meeting_language) -/

/-- A task message sent to the broker (`celery_app.send_task`); the job id
argument is implicit in the single-job state. -/
inductive TaskMsg where
  | transcription (audio_path : String) (language : String)
  | diarization (audio_path : String)
  | assemble (request_id : String) (language : String)
deriving DecidableEq, Repr

/-- The configured shared audio directory (`settings.SHARED_AUDIO_PATH`);
the concrete value is environment-provided and does not matter. -/
def SHARED_AUDIO_PATH : String := "/shared/audio"

/-- Helper of `pyStem`: scanning the reversed name, drop up to and
including the first dot; `none` when there is no dot or the dot is the
name's leading character. -/
def stemDrop : List Char → Option (List Char)
  | [] => none
  | c :: cs =>
    if c = '.' then (if cs.isEmpty then none else some cs) else stemDrop cs

/-- Python `Path(name).stem`: the name without its last extension; a name
with no dot, or only a leading dot, is returned whole. -/
def pyStem (name : String) : String :=
  match stemDrop name.data.reverse with
  | some rest => ⟨rest.reverse⟩
  | none => name

/-- The assembled audio path
`SHARED_AUDIO_PATH / request_id / (stem of original_filename ++ "_full.wav")`. -/
def fullAudioPath (request_id original_filename : String) : String :=
  SHARED_AUDIO_PATH ++ "/" ++ request_id ++ "/" ++ pyStem original_filename ++ "_full.wav"

/-- Route `POST /meeting/\x7brequest_id\x7d/language` (after ownership), state
and task effects.  `files` is the set of files on the shared path.  Same
language: return at once, nothing enqueued.  Cached transcript for the new
language: delete any diarized transcript, status `transcription_complete`,
nothing enqueued.  Otherwise require the assembled audio and enqueue one
transcription task with status `transcribing`.  An HTTP error rolls the
session back, so the in-memory language assignment is discarded. -/
def change_meeting_language (st : ControllerState) (files : List String)
    (new_language : String) : Except RouteErr (ControllerState × List TaskMsg) :=
  if st.job.language = new_language then .ok (st, [])
  else
    match st.transcriptions.find? (fun t => t.language = new_language) with
    | some _ =>
      .ok ({ st with
               job := { st.job with language := new_language,
                                    status := "transcription_complete" },
               diarized := none }, [])
    | none =>
      if fullAudioPath st.job.request_id st.job.original_filename ∈ files then
        .ok ({ st with
                 job := { st.job with language := new_language,
                                      status := "transcribing" } },
             [TaskMsg.transcription
                (fullAudioPath st.job.request_id st.job.original_filename)
                new_language])
      else .error (.httpErr 404 "Assembled audio file not found. Cannot re-transcribe.")

/-- C7: changeLanguage to the current language returns at once with no
state change and nothing enqueued; to a language with a cached transcript
it sets the language, deletes any diarized transcript and reverts to
`transcription_complete` with nothing enqueued; and to a language without
a cached transcript (with the assembled audio present) it sets the
language and `transcribing` and enqueues exactly one transcription task. -/
theorem change_language_cases (st : ControllerState) (files : List String)
    (lang : String) :
    (st.job.language = lang → change_meeting_language st files lang = .ok (st, [])) ∧
    (st.job.language ≠ lang → (∃ t ∈ st.transcriptions, t.language = lang) →
      change_meeting_language st files lang =
        .ok ({ st with
                 job := { st.job with language := lang,
                                      status := "transcription_complete" },
                 diarized := none }, [])) ∧
    (st.job.language ≠ lang → (∀ t ∈ st.transcriptions, t.language ≠ lang) →
      fullAudioPath st.job.request_id st.job.original_filename ∈ files →
      change_meeting_language st files lang =
        .ok ({ st with
                 job := { st.job with language := lang, status := "transcribing" } },
             [TaskMsg.transcription
                (fullAudioPath st.job.request_id st.job.original_filename) lang])) := by
  refine ⟨?_, ?_, ?_⟩
  · intro h
    simp [change_meeting_language, h]
  · intro hne hex
    have hfind : (st.transcriptions.find? (fun t => t.language = lang)).isSome := by
      rw [List.find?_isSome]
      obtain ⟨t, ht, hlang⟩ := hex
      exact ⟨t, ht, by simp [hlang]⟩
    obtain ⟨t, hfind2⟩ := Option.isSome_iff_exists.mp hfind
    simp [change_meeting_language, hne, hfind2]
  · intro hne hnone hmem
    have hfind : st.transcriptions.find? (fun t => t.language = lang) = none := by
      rw [List.find?_eq_none]
      intro t ht
      simp [hnone t ht]
    simp [change_meeting_language, hne, hfind, hmem]

/-- Witness for C7: on the concrete completed job `stWithDia` (active
language vi), a change to vi is an immediate no-op, and a change to en
(no cached en transcript, assembled audio present) enqueues exactly one
transcription task. -/
theorem change_language_cases_witness :
    change_meeting_language stWithDia [] "vi" = .ok (stWithDia, []) ∧
    change_meeting_language stWithDia [fullAudioPath "r1" "m.wav"] "en" =
      .ok ({ stWithDia with
               job := { stWithDia.job with language := "en", status := "transcribing" } },
           [TaskMsg.transcription (fullAudioPath "r1" "m.wav") "en"]) := by
  constructor
  · exact (change_language_cases stWithDia [] "vi").1 rfl
  · have h := (change_language_cases stWithDia [fullAudioPath "r1" "m.wav"] "en").2.2
      (by decide) (by decide) (by simp [stWithDia])
    simpa [stWithDia] using h

/-! ## Ownership (app/api/deps.py) and chunk upload (meeting.py) -/

/-- Embedding of `get_owned_job_from_path`: find the job by `request_id`, 404 when
absent, 403 when the caller (resolved from the `username` query) is not
the owner. -/
def get_owned_job_from_path (jobs : List MeetingJobRec) (request_id : String)
    (callerId : Nat) : Except RouteErr MeetingJobRec :=
  match jobs.find? (fun j => j.request_id = request_id) with
  | none => .error (.httpErr 404
      ("Meeting job with request_id '" ++ request_id ++ "' not found."))
  | some job =>
    if job.user_id ≠ callerId then
      .error (.httpErr 403 "Forbidden: You do not have permission to access this resource.")
    else .ok job

/-- Route `POST /meeting/upload-file-chunk`.  The route's only inputs are the
form fields `requestId`, `isLastChunk` and the chunk file: it resolves the
job by `requestId` alone and consults NO user identity.  First chunk
records `upload_started_at`; the chunk file is written under the job's
directory; the last chunk records `upload_finished_at`, moves the status
to `assembling` and enqueues one assemble task.  Returns the new state,
the files written, and the tasks enqueued. -/
def upload_file_chunk (st : ControllerState) (files : List String)
    (requestId : String) (isLastChunk : Bool) (chunk_filename : String)
    (now : Int) : Except RouteErr ((ControllerState × List String) × List TaskMsg) :=
  if st.job.request_id ≠ requestId then
    .error (.httpErr 404 "Meeting job not found.")
  else if st.job.status ≠ "uploading" then
    .error (.httpErr 400
      ("Cannot upload chunks when job status is '" ++ st.job.status ++ "'."))
  else
    let job1 := if st.job.upload_started_at = none then
                  { st.job with upload_started_at := some now } else st.job
    let files1 := files ++ [SHARED_AUDIO_PATH ++ "/" ++ requestId ++ "/" ++ chunk_filename]
    if isLastChunk then
      let job2 := { job1 with status := "assembling", upload_finished_at := some now }
      .ok (({ st with job := job2 }, files1), [TaskMsg.assemble requestId st.job.language])
    else
      .ok (({ st with job := job1 }, files1), [])

/-- A job in `uploading` state owned by user 7. -/
def stUploading : ControllerState :=
  { job := { request_id := "r3", user_id := 7, original_filename := "m.wav",
             bbh_name := "BBH", meeting_type := "online", meeting_host := "Lan",
             language := "vi", status := "uploading", error_message := none,
             upload_started_at := none, upload_finished_at := none,
             created_at := 0, updated_at := 0 },
    transcriptions := [], diarized := none,
    summaries := [], chat_history := [] }

/-- The state `stUploading` after a successful last-chunk upload at time
50: started/finished recorded, status `assembling`. -/
def stUploadedLast : ControllerState :=
  { job := { request_id := "r3", user_id := 7, original_filename := "m.wav",
             bbh_name := "BBH", meeting_type := "online", meeting_host := "Lan",
             language := "vi", status := "assembling", error_message := none,
             upload_started_at := some 50, upload_finished_at := some 50,
             created_at := 0, updated_at := 0 },
    transcriptions := [], diarized := none,
    summaries := [], chat_history := [] }

/-- Counterexample to C8: chunk upload is a Controller operation that
mutates an existing Job, yet it consults no user identity at all — a
request on behalf of user 9 (≠ owner 7) is accepted and mutates the job
(records `upload_started_at`, moves it to `assembling`, enqueues the
assemble task) instead of failing forbidden. -/
theorem upload_chunk_ignores_ownership :
    stUploading.job.user_id = 7 ∧ (9 : Nat) ≠ 7 ∧
    upload_file_chunk stUploading [] "r3" true "m_0.wav" 50 =
      .ok ((stUploadedLast, [SHARED_AUDIO_PATH ++ "/r3/m_0.wav"]),
           [TaskMsg.assemble "r3" "vi"]) :=
  ⟨rfl, by decide, rfl⟩

/-- C8 amended: ownership is enforced exactly where a route resolves the
job through the ownership dependencies: `get_owned_job_from_path` rejects
a non-owner with 403 and no state is touched; chunk upload resolves the
job by `requestId` alone, so any caller's upload against a job in
`uploading` state is accepted. -/
theorem ownership_enforced_only_by_deps :
    (∀ (jobs : List MeetingJobRec) (rid : String) (caller : Nat) (job : MeetingJobRec),
      jobs.find? (fun j => j.request_id = rid) = some job → job.user_id ≠ caller →
      get_owned_job_from_path jobs rid caller =
        .error (.httpErr 403 "Forbidden: You do not have permission to access this resource.")) ∧
    (∀ (st : ControllerState) (files : List String) (filename : String) (now : Int),
      st.job.status = "uploading" →
      ∃ st2 files2,
        upload_file_chunk st files st.job.request_id false filename now =
          .ok ((st2, files2), [])) := by
  constructor
  · intro jobs rid caller job hfind hne
    simp [get_owned_job_from_path, hfind, hne]
  · intro st files filename now hstatus
    by_cases h : st.job.upload_started_at = none
    · exact ⟨{ st with job := { st.job with upload_started_at := some now } },
        files ++ [SHARED_AUDIO_PATH ++ "/" ++ st.job.request_id ++ "/" ++ filename],
        by simp [upload_file_chunk, hstatus, h]⟩
    · exact ⟨st,
        files ++ [SHARED_AUDIO_PATH ++ "/" ++ st.job.request_id ++ "/" ++ filename],
        by simp [upload_file_chunk, hstatus, h]⟩

/-- Witness for the amended C8: user 9 is rejected by the ownership
dependency on the job of `stUploading`, while the user-blind chunk upload
against the same job is accepted. -/
theorem ownership_enforced_only_by_deps_witness :
    get_owned_job_from_path [stUploading.job] "r3" 9 =
      .error (.httpErr 403 "Forbidden: You do not have permission to access this resource.") ∧
    ∃ st2 files2,
      upload_file_chunk stUploading [] "r3" false "m_0.wav" 50 =
        .ok ((st2, files2), []) := by
  constructor
  · exact ownership_enforced_only_by_deps.1 [stUploading.job] "r3" 9 stUploading.job
      (by rfl) (by decide)
  · exact ownership_enforced_only_by_deps.2 stUploading [] "m_0.wav" 50 (by rfl)

/-! ## Chat sub-engine (app/api/routes/meeting.py, chat_with_meeting)

The two LLM calls are external: the parsed stage-1 intent and the raw
stage-2 reply enter the model as parameters.  A stage-1 parse failure is
represented by `intent = some "ask_question"` (the route's except handler
assigns exactly that). -/

/-- Python regex `\w` on the ASCII range: letters, digits, underscore
(the tags in use are ASCII). -/
def isWordChar (c : Char) : Bool := c.isAlphanum || c = '_'

/-- Model of `re.match(r'\[UPDATE:(\w+)\]\s*(.*)', reply, re.DOTALL)`: anchored at
the start; group 1 is the maximal nonempty word-character run after the
literal `[UPDATE:`, which must be followed by `]`; `\s*` greedily eats
whitespace; group 2 (DOTALL) is everything after it.  Returns
`(group1, group2)`. -/
def matchUpdate (reply : String) : Option (String × String) :=
  let cs := reply.data
  if cs.take 8 = "[UPDATE:".data then
    let rest := cs.drop 8
    let tag := rest.takeWhile isWordChar
    let rest2 := rest.dropWhile isWordChar
    if tag.isEmpty then none
    else
      match rest2 with
      | ']' :: rest3 => some (⟨tag⟩, ⟨rest3.dropWhile Char.isWhitespace⟩)
      | _ => none
  else none

/-- Python `str.strip()`: drop leading and trailing whitespace. -/
def pyStrip (s : String) : String :=
  ⟨((s.data.dropWhile Char.isWhitespace).reverse.dropWhile Char.isWhitespace).reverse⟩

/-- Fixed reply of the clarification path (`edit_summary` with falsy
entity). -/
def clarifyReply : String :=
  "Bạn muốn sửa loại tóm tắt nào? (ví dụ: theo chủ đề, theo người nói, các công việc cần làm...)"

/-- Fixed reply of the chit-chat / fallback path. -/
def chitchatReply : String :=
  "Cảm ơn bạn. Tôi có thể giúp gì khác cho cuộc họp này không?"

/-- Reply when the summary to edit does not exist yet. -/
def missingSummaryReply (entity : String) : String :=
  "Biên bản họp theo '" ++ entity ++
    "' chưa được tạo. Vui lòng nhấn nút tương ứng để tạo tóm tắt trước khi bạn có thể chỉnh sửa."

/-- Route `POST /meeting/chat` (job already found by requestId; NO ownership
check).  Orchestration by intent; on the edit path with an existing
summary, the stage-2 reply is matched against the update pattern: on a
match the stripped group 2 replaces the summary content and is returned;
otherwise the raw reply is returned and the summary row is NOT touched.
Both the user message and the final reply are appended to the chat
history.  Returns the new state and the response. -/
def chat_with_meeting (st : ControllerState) (message : String)
    (intent : Option String) (entity : Option String) (aiReply : String) :
    ControllerState × String :=
  let result : ControllerState × String :=
    if intent = some "edit_summary" then
      if entity.getD "" = "" then (st, clarifyReply)
      else
        let ent := entity.getD ""
        match st.summaries.find? (fun s => s.summary_type = ent) with
        | none => (st, missingSummaryReply ent)
        | some _ =>
          match matchUpdate aiReply with
          | some g =>
            let newContent := pyStrip g.2
            let newSummaries := updateFirst (fun s => s.summary_type = ent)
              (fun s => { s with summary_content := newContent }) st.summaries
            ({ st with summaries := newSummaries }, newContent)
          | none => (st, aiReply)
    else if intent = some "ask_question" then (st, aiReply)
    else (st, chitchatReply)
  let hist := result.1.chat_history ++ [⟨"user", message⟩, ⟨"assistant", result.2⟩]
  ({ result.1 with chat_history := hist }, result.2)

/-- A completed job with one `topic` summary of content `X`. -/
def stWithTopic : ControllerState :=
  { job := { request_id := "r5", user_id := 7, original_filename := "m.wav",
             bbh_name := "BBH", meeting_type := "online", meeting_host := "Lan",
             language := "vi", status := "completed", error_message := none,
             upload_started_at := some 100, upload_finished_at := some 200,
             created_at := 0, updated_at := 0 },
    transcriptions := [⟨"vi", [⟨some 1, "xin chào", 0, 2⟩], false⟩],
    diarized := none,
    summaries := [⟨"topic", "X"⟩], chat_history := [] }

/-- Counterexample to C9: when the stage-2 reply does not match the
`[UPDATE:...]` pattern, the code returns the raw reply but does NOT store
it — the `topic` summary keeps its old content `X`, while the claim says
the raw reply is stored as the new Summary content. -/
theorem chat_edit_no_match_does_not_store :
    (chat_with_meeting stWithTopic "sửa tóm tắt" (some "edit_summary")
        (some "topic") "Noted.").1.summaries = [⟨"topic", "X"⟩] ∧
    (chat_with_meeting stWithTopic "sửa tóm tắt" (some "edit_summary")
        (some "topic") "Noted.").2 = "Noted." ∧
    "X" ≠ "Noted." :=
  ⟨rfl, rfl, by decide⟩

/-- C9 amended: with intent `edit_summary`, a truthy entity and an
existing Summary of that type — if the reply matches
`[UPDATE:(\w+)]\s*(.*)`, the STRIPPED capture group 2 is stored as the new
Summary content and returned; otherwise the Summary is left UNCHANGED and
the raw reply is returned; in both cases the user message and the reply
are appended to the chat history. -/
theorem chat_edit_stores_only_on_match :
    ∀ (st : ControllerState) (message ent aiReply : String) (old : SummaryRow),
      st.summaries.find? (fun s => s.summary_type = ent) = some old → ent ≠ "" →
      (matchUpdate aiReply = none →
        chat_with_meeting st message (some "edit_summary") (some ent) aiReply =
          ({ st with chat_history :=
              st.chat_history ++ [⟨"user", message⟩, ⟨"assistant", aiReply⟩] },
           aiReply)) ∧
      (∀ g : String × String, matchUpdate aiReply = some g →
        chat_with_meeting st message (some "edit_summary") (some ent) aiReply =
          ({ st with
               summaries := updateFirst (fun s => s.summary_type = ent)
                 (fun s => { s with summary_content := pyStrip g.2 }) st.summaries,
               chat_history := st.chat_history ++
                 [⟨"user", message⟩, ⟨"assistant", pyStrip g.2⟩] },
           pyStrip g.2)) := by
  intro st message ent aiReply old hfind hent
  constructor
  · intro hnone
    simp [chat_with_meeting, hent, hfind, hnone]
  · intro g hsome
    simp [chat_with_meeting, hent, hfind, hsome]

/-- Witness for the amended C9, on the spec's scenario 5: the reply
matches the update pattern, so the `topic` summary becomes
`X + budget section`, which is also the chat response, and the two chat
entries are appended. -/
theorem chat_edit_stores_only_on_match_witness :
    chat_with_meeting stWithTopic "thêm mục ngân sách" (some "edit_summary")
        (some "topic") "[UPDATE:topic] X + budget section" =
      ({ stWithTopic with
           summaries := [⟨"topic", "X + budget section"⟩],
           chat_history := [⟨"user", "thêm mục ngân sách"⟩,
                            ⟨"assistant", "X + budget section"⟩] },
       "X + budget section") := by
  have h := (chat_edit_stores_only_on_match stWithTopic "thêm mục ngân sách"
      "topic" "[UPDATE:topic] X + budget section" ⟨"topic", "X"⟩ rfl (by decide)).2
      ("topic", "X + budget section") rfl
  simpa [stWithTopic, updateFirst, pyStrip] using h

/-! ## Worker tasks (app/worker/tasks.py) -/

/-- A `Transcription` row as the workers see it: the stored
`transcript_data` is the word-level sequence fed to the mapper. -/
structure WordTransRow where
  language : String
  transcript_data : List Word
  is_edited : Bool
deriving DecidableEq, Repr

/-- The database state a worker task sees for one job: the job row (gone
when the job was deleted), the Transcription rows and the at-most-one
DiarizedTranscript row (unique on `meeting_job_id`). -/
structure WorkerState where
  job : Option MeetingJobRec
  transcriptions : List WordTransRow
  diarized : Option DiaTransRow
deriving DecidableEq, Repr

/-- The `except` handler of the worker tasks: set `status = "failed"` and
the error message when the job still exists; otherwise nothing. -/
def fail_job (st : WorkerState) (msg : String) : WorkerState :=
  match st.job with
  | some j => { st with job := some { j with status := "failed", error_message := some msg } }
  | none => st

/-- Embedding of `run_transcription_task` after the ASR call: the transcriber outputs
enter as parameters.  Empty sentence output raises, the handler marks the
job failed.  A missing job aborts silently.  Otherwise a NEW Transcription
row is added (`session.add`; there is no lookup of an existing (job,
language) row and the table has no unique constraint on it) and the job
moves to `transcription_complete`. -/
def run_transcription_task (st : WorkerState) (language : String)
    (sentence_transcript : List PSeg) (word_transcript : List Word) : WorkerState :=
  if sentence_transcript.isEmpty then
    fail_job st "Transcription Error: Transcription resulted in an empty output."
  else
    match st.job with
    | none => st
    | some job =>
      { st with
          transcriptions := st.transcriptions ++ [⟨language, word_transcript, false⟩],
          job := some { job with status := "transcription_complete", error_message := none } }

/-- Number of Transcription rows of the job for a language. -/
def transcriptionCount (st : WorkerState) (lang : String) : Nat :=
  (st.transcriptions.filter (fun t => t.language = lang)).length

/-- The job row of `stWorkerVi`. -/
def jobR4 : MeetingJobRec :=
  { request_id := "r4", user_id := 7, original_filename := "m.wav",
    bbh_name := "BBH", meeting_type := "online", meeting_host := "Lan",
    language := "vi", status := "transcribing", error_message := none,
    upload_started_at := some 100, upload_finished_at := some 200,
    created_at := 0, updated_at := 0 }

/-- A job mid-pipeline with one Vietnamese Transcription row already
stored. -/
def stWorkerVi : WorkerState :=
  { job := some jobR4,
    transcriptions := [⟨"vi", [⟨"hello", 0, 2⟩], false⟩],
    diarized := none }

/-- Counterexample to C4: rerunning the transcription task for a (job,
language) that already has a Transcript adds a SECOND row for (job, vi)
instead of replacing the existing one. -/
theorem transcription_rerun_adds_second_row :
    transcriptionCount stWorkerVi "vi" = 1 ∧
    transcriptionCount
      (run_transcription_task stWorkerVi "vi" [⟨some 1, "hello", 0, 2⟩]
        [⟨"hello", 0, 2⟩]) "vi" = 2 :=
  ⟨rfl, rfl⟩

/-- C4 amended: the transcription task inserts a new Transcript row for
(job, language) unconditionally — the row count for the target language
grows by one on every successful run (other languages untouched), so a
rerun leaves two rows rather than replacing; nothing enforces the
at-most-one invariant. -/
theorem transcription_task_always_inserts :
    ∀ (st : WorkerState) (lang : String) (sent : List PSeg) (wt : List Word)
      (j : MeetingJobRec),
      st.job = some j → sent ≠ [] →
      transcriptionCount (run_transcription_task st lang sent wt) lang =
        transcriptionCount st lang + 1 ∧
      ∀ l2, l2 ≠ lang →
        transcriptionCount (run_transcription_task st lang sent wt) l2 =
          transcriptionCount st l2 := by
  intro st lang sent wt j hjob hsent
  have hne : sent.isEmpty = false := by
    rcases sent with _ | _
    · exact absurd rfl hsent
    · rfl
  constructor
  · simp [run_transcription_task, hne, hjob, transcriptionCount, List.filter_append]
  · intro l2 hl2
    simp [run_transcription_task, hne, hjob, transcriptionCount, List.filter_append,
      Ne.symm hl2]

/-- Witness for the amended C4: on `stWorkerVi` a rerun for vi moves the
vi row count from 1 to 2 and leaves en untouched. -/
theorem transcription_task_always_inserts_witness :
    transcriptionCount
      (run_transcription_task stWorkerVi "vi" [⟨some 1, "hello", 0, 2⟩]
        [⟨"hello", 0, 2⟩]) "vi" = transcriptionCount stWorkerVi "vi" + 1 ∧
    transcriptionCount
      (run_transcription_task stWorkerVi "vi" [⟨some 1, "hello", 0, 2⟩]
        [⟨"hello", 0, 2⟩]) "en" = transcriptionCount stWorkerVi "en" := by
  have h := transcription_task_always_inserts stWorkerVi "vi"
    [⟨some 1, "hello", 0, 2⟩] [⟨"hello", 0, 2⟩] jobR4 rfl (by decide)
  exact ⟨h.1, h.2 "en" (by decide)⟩

/-- The rendered text of the IntegrityError raised when inserting a second
`DiarizedTranscript` row for the same `meeting_job_id` (UNIQUE column);
the exact driver wording is irrelevant to the claims. -/
def integrityErrorText : String :=
  "(IntegrityError) duplicate key value violates unique constraint diarizedtranscript_meeting_job_id_key"

/-- Embedding of `run_diarization_task` after the external diarizer call (its speaker
segments enter as a parameter).  Missing job: silent abort.  Missing or
empty source transcript, or empty diarizer output: the raised error is
caught and the job marked failed.  Otherwise the mapper output is written
as a NEW DiarizedTranscript row with `status = "completed"` — no prior
row is deleted, so when one exists the insert violates the unique
constraint at commit, the transaction rolls back and the handler marks
the job failed. -/
def run_diarization_task (st : WorkerState) (speaker_segments : List SpeakerSeg) :
    WorkerState :=
  match st.job with
  | none => st
  | some job =>
    match st.transcriptions.find? (fun t => t.language = job.language) with
    | none =>
      fail_job st "Diarization Error: Could not find a valid source transcript for diarization."
    | some entry =>
      if entry.transcript_data.isEmpty then
        fail_job st "Diarization Error: Could not find a valid source transcript for diarization."
      else if speaker_segments.isEmpty then
        fail_job st "Diarization Error: Diarization process did not produce any speaker segments."
      else
        let mapped := map_speaker_to_text speaker_segments entry.transcript_data
        match st.diarized with
        | some _ => fail_job st ("Diarization Error: " ++ integrityErrorText)
        | none =>
          { st with
              diarized := some ⟨mapped, false⟩,
              job := some { job with status := "completed", error_message := none } }

/-- The job row of `stDiaReady`. -/
def jobR6 : MeetingJobRec :=
  { request_id := "r6", user_id := 7, original_filename := "m.wav",
    bbh_name := "BBH", meeting_type := "online", meeting_host := "Lan",
    language := "vi", status := "diarizing", error_message := none,
    upload_started_at := some 100, upload_finished_at := some 200,
    created_at := 0, updated_at := 0 }

/-- The message the diarization handler persists on a duplicate insert. -/
def diarizationDupMsg : String := "Diarization Error: " ++ integrityErrorText

/-- A job ready for diarization: status `diarizing`, a Vietnamese word
transcript, no diarized row yet. -/
def stDiaReady : WorkerState :=
  { job := some jobR6,
    transcriptions := [⟨"vi", [⟨"hello", 0, 2⟩], false⟩],
    diarized := none }

/-- The diarizer timeline used in the duplicate-delivery scenario. -/
def segsOne : List SpeakerSeg := [⟨0, 2, "S1"⟩]

/-- State `stDiaReady` after one successful diarization run. -/
def stDiaDone : WorkerState :=
  { job := some { jobR6 with status := "completed" },
    transcriptions := [⟨"vi", [⟨"hello", 0, 2⟩], false⟩],
    diarized := some ⟨[⟨"S1", "hello", 0, 2⟩], false⟩ }

/-- Counterexample to C5: the worker deletes no prior DiarizedTranscript;
a duplicate delivery of the diarization task hits the unique constraint
and marks the completed job `failed` instead of leaving it in the
single-execution state. -/
theorem diarization_rerun_fails :
    run_diarization_task stDiaReady segsOne = stDiaDone ∧
    (run_diarization_task stDiaDone segsOne).job =
      some { jobR6 with status := "failed", error_message := some diarizationDupMsg } ∧
    (run_diarization_task stDiaDone segsOne).job ≠ stDiaDone.job := by
  refine ⟨?_, rfl, by decide⟩
  norm_num [run_diarization_task, stDiaReady, stDiaDone, segsOne, jobR6,
    map_speaker_to_text, mapLoop, collectWords, center]
  decide

/-- C5 amended: the diarization worker, given a job with a valid source
transcript and nonempty diarizer output, inserts the mapped transcript
and completes the job when NO DiarizedTranscript exists; when one already
exists it deletes nothing, the insert violates the unique
`meeting_job_id` constraint, and the handler marks the job failed — a
second execution does not reproduce the single-execution state. -/
theorem diarization_insert_or_fail :
    ∀ (st : WorkerState) (segs : List SpeakerSeg) (j : MeetingJobRec)
      (entry : WordTransRow),
      st.job = some j →
      st.transcriptions.find? (fun t => t.language = j.language) = some entry →
      entry.transcript_data ≠ [] → segs ≠ [] →
      (st.diarized = none →
        run_diarization_task st segs =
          { st with
              diarized := some ⟨map_speaker_to_text segs entry.transcript_data, false⟩,
              job := some { j with status := "completed", error_message := none } }) ∧
      (∀ d, st.diarized = some d →
        run_diarization_task st segs =
          { st with
              job := some { j with status := "failed",
                                   error_message := some diarizationDupMsg } }) := by
  intro st segs j entry hjob hfind hdata hsegs
  have hd : entry.transcript_data.isEmpty = false := by
    rcases h : entry.transcript_data with _ | _
    · exact absurd h hdata
    · rfl
  have hs : segs.isEmpty = false := by
    rcases h : segs with _ | _
    · exact absurd h hsegs
    · rfl
  constructor
  · intro hnone
    simp [run_diarization_task, hjob, hfind, hd, hs, hnone]
  · intro d hsome
    simp [run_diarization_task, hjob, hfind, hd, hs, hsome, fail_job, diarizationDupMsg]

/-- Witness for the amended C5: both branches fire on the concrete states
`stDiaReady` (no diarized row: completes) and `stDiaDone` (existing row:
fails). -/
theorem diarization_insert_or_fail_witness :
    run_diarization_task stDiaReady segsOne =
      { stDiaReady with
          diarized := some ⟨map_speaker_to_text segsOne [⟨"hello", 0, 2⟩], false⟩,
          job := some { jobR6 with status := "completed", error_message := none } } ∧
    run_diarization_task stDiaDone segsOne =
      { stDiaDone with
          job := some { jobR6 with status := "failed",
                                   error_message := some diarizationDupMsg } } := by
  constructor
  · exact (diarization_insert_or_fail stDiaReady segsOne jobR6
      ⟨"vi", [⟨"hello", 0, 2⟩], false⟩ rfl rfl (by decide) (by decide)).1 rfl
  · exact (diarization_insert_or_fail stDiaDone segsOne { jobR6 with status := "completed" }
      ⟨"vi", [⟨"hello", 0, 2⟩], false⟩ rfl rfl (by decide) (by decide)).2
      ⟨[⟨"S1", "hello", 0, 2⟩], false⟩ rfl

/-! ## Stale-job reaper (app/main.py, cleanup_stale_jobs) -/

/-- The statuses the reaper treats as stuck. -/
def staleStates : List String := ["uploading", "assembling", "transcribing", "diarizing"]

/-- The fixed timeout error message. -/
def timeoutMessage : String := "Job timed out and was cleaned up automatically."

/-- Whether one pass selects the job: status in the stale set and
`created_at` older than the 2-day threshold (`timedelta(days=2)` in
seconds) before `now`. -/
def isStale (j : MeetingJobRec) (now : Int) : Prop :=
  j.status ∈ staleStates ∧ j.created_at < now - 2 * 86400

instance (j : MeetingJobRec) (now : Int) : Decidable (isStale j now) := by
  unfold isStale; infer_instance

/-- One pass of `cleanup_stale_jobs` over the job table: selected jobs get
`status = "failed"` and the fixed message; committing the update also
refreshes `updated_at` through the column's `onupdate=func.now()` (the
database clock `dbNow`).  Unselected jobs are untouched. -/
def cleanup_stale_jobs_pass (jobs : List MeetingJobRec) (now dbNow : Int) :
    List MeetingJobRec :=
  jobs.map (fun j =>
    if isStale j now then
      { j with status := "failed", error_message := some timeoutMessage,
               updated_at := dbNow }
    else j)

/-- A job stuck in `uploading` since time 0. -/
def jobStuck : MeetingJobRec :=
  { request_id := "r7", user_id := 7, original_filename := "m.wav",
    bbh_name := "BBH", meeting_type := "online", meeting_host := "Lan",
    language := "vi", status := "uploading", error_message := none,
    upload_started_at := some 0, upload_finished_at := none,
    created_at := 0, updated_at := 0 }

/-- Counterexample to C10: a reaper pass at day 10 on a job stuck since
day 0 sets the failed status and the timeout message, but it ALSO changes
`updated_at` (column-level `onupdate`), so not every field other than
`status` and `error_message` is left unchanged. -/
theorem reaper_changes_updated_at :
    cleanup_stale_jobs_pass [jobStuck] (10 * 86400) (10 * 86400) =
      [{ jobStuck with status := "failed", error_message := some timeoutMessage,
                       updated_at := 10 * 86400 }] ∧
    (10 * 86400 : Int) ≠ jobStuck.updated_at := by
  constructor
  · simp [cleanup_stale_jobs_pass, isStale, jobStuck, staleStates]
  · decide

/-- C10 amended: one reaper pass maps each job row as follows — exactly
the jobs with status in \x7buploading, assembling, transcribing,
diarizing\x7d and `created_at` older than 2 days before `now` get
`status = "failed"`, the fixed timeout `error_message`, and a refreshed
`updated_at`; every other job, and every other field of the affected
jobs, is left unchanged. -/
theorem reaper_marks_exactly_stale_jobs :
    ∀ (jobs : List MeetingJobRec) (now dbNow : Int),
      List.Forall₂ (fun j j' =>
        (isStale j now →
          j' = { j with status := "failed", error_message := some timeoutMessage,
                        updated_at := dbNow }) ∧
        (¬ isStale j now → j' = j))
        jobs (cleanup_stale_jobs_pass jobs now dbNow) := by
  intro jobs now dbNow
  induction jobs with
  | nil => exact List.Forall₂.nil
  | cons j rest ih =>
    refine List.Forall₂.cons ?_ ih
    by_cases h : isStale j now
    · exact ⟨fun _ => by simp [cleanup_stale_jobs_pass, h], fun hc => absurd h hc⟩
    · exact ⟨fun hc => absurd hc h, fun _ => by simp [cleanup_stale_jobs_pass, h]⟩

/-- Witness for the amended C10: a two-job table at day 10, one stuck in
`uploading` since day 0 and one `completed` job of the same age — the
first is reaped (with `updated_at` refreshed), the second untouched. -/
theorem reaper_marks_exactly_stale_jobs_witness :
    isStale jobStuck (10 * 86400) ∧
    ¬ isStale { jobStuck with status := "completed" } (10 * 86400) ∧
    cleanup_stale_jobs_pass [jobStuck, { jobStuck with status := "completed" }]
        (10 * 86400) (10 * 86400 + 5) =
      [{ jobStuck with status := "failed", error_message := some timeoutMessage,
                       updated_at := 10 * 86400 + 5 },
       { jobStuck with status := "completed" }] := by
  have h := reaper_marks_exactly_stale_jobs
    [jobStuck, { jobStuck with status := "completed" }] (10 * 86400) (10 * 86400 + 5)
  have hs : isStale jobStuck (10 * 86400) := by decide
  have hn : ¬ isStale { jobStuck with status := "completed" } (10 * 86400) := by decide
  rcases h with _ | ⟨⟨h1, _⟩, h2⟩
  rcases h2 with _ | ⟨⟨_, h3⟩, _⟩
  refine ⟨hs, hn, ?_⟩
  simp [cleanup_stale_jobs_pass]
  exact ⟨by simpa using h1 hs, by simpa using h3 hn⟩

end MeetingApp
